import Mathlib

/-!
Verification of the packet framing / decoding engine and per-connection state
machine of the `funny-proxy` repository (src/packet.rs, src/connection.rs).

The Rust code is shallowly embedded:
* byte buffers (`Vec<u8>`) become `List Nat` (elements are byte values);
* machine integers are modelled by their bit patterns as `Nat` together with
  explicit `% 2^w` truncation, and signed values as `Int` obtained from the
  pattern by two's-complement reinterpretation;
* the `PacketReader` cursor becomes an explicit `(buf, readerIndex)` pair that
  is threaded through each read;
* fallible reads return an explicit result type whose `crash` constructor
  models a Rust panic (out-of-bounds index, `unwrap`/`expect` on `Err`,
  or an arithmetic underflow / failed huge allocation).
-/

set_option maxRecDepth 4096

namespace FunnyProxy

/-- `ConnectionState` from src/connection.rs. -/
inductive ConnectionState where
  | handshake
  | status
  | login
  | play
  | disconnected
deriving DecidableEq, Repr

/-- `PacketType` from src/packet.rs. -/
inductive PacketType where
  | handshakeServerboundStart
  | statusServerboundRequest
  | statusClientboundResponse
  | statusServerboundPing
  | statusClientboundPong
  | loginServerboundStart
  | loginClientboundSuccess
  | playClientboundLogin
  | playClientboundDifficulty
  | playClientboundAbilities
  | playClientboundSetDefaultSpawnPosition
deriving DecidableEq, Repr

/-- `DecodingError` from src/packet.rs.  `StringInvalidUtf8` carries a
`Utf8Error` payload in the source; the payload is not inspected anywhere, so it
is dropped here. -/
inductive DecodingError where
  | packetTooSmall
  | varIntTooBig
  | invalidPacketId : Int → ConnectionState → DecodingError
  | stringTooSmall
  | stringTooLarge
  | stringInvalidUtf8
  | invalidClientboundPacket : PacketType → DecodingError
deriving DecidableEq, Repr

/-- Result of running a piece of Rust code that may return `Err` or panic.
`crash` models a panic (index out of bounds, `unwrap`/`expect` on an error,
usize underflow / failed huge allocation). -/
inductive RResult (α : Type) where
  | ok : α → RResult α
  | err : DecodingError → RResult α
  | crash : RResult α
deriving DecidableEq, Repr

/-- Two's-complement reinterpretation of a 32-bit pattern as an `i32`. -/
def i32ofPattern (p : Nat) : Int :=
  if p < 2 ^ 31 then (p : Int) else (p : Int) - 2 ^ 32

/-- Bit pattern (`u32`) of an `i32` value; also models Rust's `as u32` cast. -/
def u32Pattern (v : Int) : Nat := (v % (2 ^ 32 : Int)).toNat

/-- Two's-complement reinterpretation of a 64-bit pattern as an `i64`. -/
def i64ofPattern (p : Nat) : Int :=
  if p < 2 ^ 63 then (p : Int) else (p : Int) - 2 ^ 64

/-- Bit pattern (`u64`) of an `i64` value; also models Rust's `as u64` cast. -/
def u64Pattern (v : Int) : Nat := (v % (2 ^ 64 : Int)).toNat

/-- Rust's `as usize` cast of an `i32` (sign-extend, reinterpret unsigned). -/
def usizeOfI32 (v : Int) : Nat := (v % (2 ^ 64 : Int)).toNat

/-- Wrapping (release-mode) `usize` subtraction `a - b`, for `b ≤ 2^64`. -/
def usizeSub (a b : Nat) : Nat := (a + 2 ^ 64 - b) % 2 ^ 64

/-- `PacketReader` from src/packet.rs: a borrowed buffer plus a cursor. -/
structure PacketReader where
  buf : List Nat
  readerIndex : Nat
deriving DecidableEq, Repr

namespace PacketReader

/-- `PacketReader::create`. -/
def create (buf : List Nat) : PacketReader := ⟨buf, 0⟩

/-- `PacketReader::left_to_read`. -/
def leftToRead (r : PacketReader) : Nat := r.buf.length - r.readerIndex

/-- `PacketReader::ensure_at_least`. -/
def ensureAtLeast (r : PacketReader) (len : Nat) : RResult Unit :=
  if r.readerIndex + len > r.buf.length then .err .stringTooSmall else .ok ()

/-- `PacketReader::read_one_unsafe`.  The source indexes `self.buf
[self.reader_index]` unconditionally; an out-of-bounds index is a Rust panic,
modelled by `crash`. -/
def readOneUnsafe (r : PacketReader) : RResult (Nat × PacketReader) :=
  if r.readerIndex < r.buf.length then
    .ok (r.buf.getD r.readerIndex 0, ⟨r.buf, r.readerIndex + 1⟩)
  else
    .crash

/-- `PacketReader::try_read_one`. -/
def tryReadOne (r : PacketReader) : RResult (Nat × PacketReader) :=
  if r.readerIndex ≥ r.buf.length then .err .packetTooSmall
  else readOneUnsafe r

/-- `PacketReader::try_read_all`.  The source copies `out.len()` bytes into the
caller's buffer; here the copied slice is returned. -/
def tryReadAll (r : PacketReader) (len : Nat) : RResult (List Nat × PacketReader) :=
  match r.ensureAtLeast len with
  | .ok _ => .ok ((r.buf.drop r.readerIndex).take len, ⟨r.buf, r.readerIndex + len⟩)
  | .err e => .err e
  | .crash => .crash

/-- Loop body of `PacketReader::read_varint`.  `value` is the `i32`
accumulator's 32-bit pattern, `position` the current shift offset.  Each step
computes `value |= (current_byte & 0x7F) << position` in `i32` arithmetic
(hence the `% 2^32` truncation), stops when the continuation bit `0x80` is
clear, and fails with `VarIntTooBig` once `position` reaches 32. -/
def readVarintAux (r : PacketReader) (value position : Nat) : RResult (Nat × PacketReader) :=
  match tryReadOne r with
  | .ok (currentByte, r') =>
    let value' := (value ||| ((currentByte &&& 0x7F) <<< position)) % 2 ^ 32
    if currentByte &&& 0x80 = 0 then
      .ok (value', r')
    else if position + 7 ≥ 32 then
      .err .varIntTooBig
    else
      readVarintAux r' value' (position + 7)
  | .err e => .err e
  | .crash => .crash
termination_by 32 - position
decreasing_by omega

/-- `PacketReader::read_varint`: the accumulated pattern read back as `i32`. -/
def readVarint (r : PacketReader) : RResult (Int × PacketReader) :=
  match readVarintAux r 0 0 with
  | .ok (p, r') => .ok (i32ofPattern p, r')
  | .err e => .err e
  | .crash => .crash

/-- `PacketReader::read_varint_with_size`. -/
def readVarintWithSize (r : PacketReader) : RResult ((Int × Nat) × PacketReader) :=
  match readVarint r with
  | .ok (v, r') => .ok ((v, r'.readerIndex - r.readerIndex), r')
  | .err e => .err e
  | .crash => .crash

end PacketReader

/-- Is `b` a UTF-8 continuation byte (`0x80..=0xBF`)? -/
def isCont (b : Nat) : Bool := 0x80 ≤ b && b ≤ 0xBF

/-- UTF-8 well-formedness of a byte sequence, exactly the condition under
which Rust's `std::str::from_utf8` succeeds: the standard table of 1- to
4-byte sequences, rejecting overlong forms, surrogates (`0xED A0..` ),
and code points above `U+10FFFF`. -/
def utf8Valid : List Nat → Bool
  | [] => true
  | b :: rest =>
    if b ≤ 0x7F then utf8Valid rest
    else if 0xC2 ≤ b && b ≤ 0xDF then
      match rest with
      | c1 :: rest' => isCont c1 && utf8Valid rest'
      | [] => false
    else if b == 0xE0 then
      match rest with
      | c1 :: c2 :: rest' => (0xA0 ≤ c1 && c1 ≤ 0xBF) && isCont c2 && utf8Valid rest'
      | _ => false
    else if (0xE1 ≤ b && b ≤ 0xEC) || b == 0xEE || b == 0xEF then
      match rest with
      | c1 :: c2 :: rest' => isCont c1 && isCont c2 && utf8Valid rest'
      | _ => false
    else if b == 0xED then
      match rest with
      | c1 :: c2 :: rest' => (0x80 ≤ c1 && c1 ≤ 0x9F) && isCont c2 && utf8Valid rest'
      | _ => false
    else if b == 0xF0 then
      match rest with
      | c1 :: c2 :: c3 :: rest' =>
        (0x90 ≤ c1 && c1 ≤ 0xBF) && isCont c2 && isCont c3 && utf8Valid rest'
      | _ => false
    else if 0xF1 ≤ b && b ≤ 0xF3 then
      match rest with
      | c1 :: c2 :: c3 :: rest' => isCont c1 && isCont c2 && isCont c3 && utf8Valid rest'
      | _ => false
    else if b == 0xF4 then
      match rest with
      | c1 :: c2 :: c3 :: rest' =>
        (0x80 ≤ c1 && c1 ≤ 0x8F) && isCont c2 && isCont c3 && utf8Valid rest'
      | _ => false
    else false

namespace PacketReader

/-- `PacketReader::read_string`.  The declared character count is read as a
varint and cast `as usize` (sign-extending, so a negative count becomes huge);
it is compared against `max_length` *before* the buffer length is checked.
The decoded string is returned as its byte slice (Rust's `str::from_utf8`
succeeds exactly on `utf8Valid` slices and reuses the input bytes). -/
def readString (r : PacketReader) (maxLength : Nat) : RResult (List Nat × PacketReader) :=
  match readVarint r with
  | .ok (sizeI, r') =>
    let size := usizeOfI32 sizeI
    if size > maxLength then .err .stringTooLarge
    else
      match r'.ensureAtLeast size with
      | .ok _ =>
        let slice := (r'.buf.drop r'.readerIndex).take size
        if utf8Valid slice then
          .ok (slice, ⟨r'.buf, r'.readerIndex + size⟩)
        else
          .err .stringInvalidUtf8
      | _ => .err .stringTooSmall
  | .err e => .err e
  | .crash => .crash

/-- `PacketReader::read_boolean`: one byte, zero = false, nonzero = true. -/
def readBoolean (r : PacketReader) : RResult (Bool × PacketReader) :=
  match tryReadOne r with
  | .ok (b, r') => .ok (b ≠ 0, r')
  | .err e => .err e
  | .crash => .crash

/-- `PacketReader::read_short`: two big-endian bytes combined in `u16`
arithmetic. -/
def readShort (r : PacketReader) : RResult (Nat × PacketReader) :=
  match r.ensureAtLeast 2 with
  | .ok _ =>
    match readOneUnsafe r with
    | .ok (b0, r1) =>
      match readOneUnsafe r1 with
      | .ok (b1, r2) => .ok (((b0 <<< 8) ||| b1) % 2 ^ 16, r2)
      | .err e => .err e
      | .crash => .crash
    | .err e => .err e
    | .crash => .crash
  | .err e => .err e
  | .crash => .crash

/-- `PacketReader::read_long`: eight unchecked big-endian byte reads combined
in `i64` arithmetic.  NOTE: the source guards with `ensure_at_least(2)` — not
8 — so with 2..7 bytes remaining the unchecked reads index out of bounds
(a panic, modelled by `crash` via `readOneUnsafe`). -/
def readLong (r : PacketReader) : RResult (Int × PacketReader) :=
  match r.ensureAtLeast 2 with
  | .ok _ =>
    match readOneUnsafe r with
    | .ok (b0, r1) =>
      match readOneUnsafe r1 with
      | .ok (b1, r2) =>
        match readOneUnsafe r2 with
        | .ok (b2, r3) =>
          match readOneUnsafe r3 with
          | .ok (b3, r4) =>
            match readOneUnsafe r4 with
            | .ok (b4, r5) =>
              match readOneUnsafe r5 with
              | .ok (b5, r6) =>
                match readOneUnsafe r6 with
                | .ok (b6, r7) =>
                  match readOneUnsafe r7 with
                  | .ok (b7, r8) =>
                    let p := ((b0 <<< 56) ||| (b1 <<< 48) ||| (b2 <<< 40) |||
                              (b3 <<< 32) ||| (b4 <<< 24) ||| (b5 <<< 16) |||
                              (b6 <<< 8) ||| b7) % 2 ^ 64
                    .ok (i64ofPattern p, r8)
                  | .err e => .err e
                  | .crash => .crash
                | .err e => .err e
                | .crash => .crash
              | .err e => .err e
              | .crash => .crash
            | .err e => .err e
            | .crash => .crash
          | .err e => .err e
          | .crash => .crash
        | .err e => .err e
        | .crash => .crash
      | .err e => .err e
      | .crash => .crash
    | .err e => .err e
    | .crash => .crash
  | .err e => .err e
  | .crash => .crash

/-- `PacketReader::read_uuid`: two consecutive `read_long`s, most significant
half first, combined via `Uuid::from_u64_pair` — modelled as the pair of
64-bit patterns. -/
def readUuid (r : PacketReader) : RResult ((Nat × Nat) × PacketReader) :=
  match readLong r with
  | .ok (msb, r1) =>
    match readLong r1 with
    | .ok (lsb, r2) => .ok ((u64Pattern msb, u64Pattern lsb), r2)
    | .err e => .err e
    | .crash => .crash
  | .err e => .err e
  | .crash => .crash

/-- `PacketReader::read_optional`: a leading boolean, then the wrapped read if
it was true. -/
def readOptional {α : Type} (r : PacketReader)
    (read : PacketReader → RResult (α × PacketReader)) :
    RResult (Option α × PacketReader) :=
  match readBoolean r with
  | .ok (b, r1) =>
    if b then
      match read r1 with
      | .ok (v, r2) => .ok (some v, r2)
      | .err e => .err e
      | .crash => .crash
    else
      .ok (none, r1)
  | .err e => .err e
  | .crash => .crash

end PacketReader

/-! ### Write side (`PacketWriter`)

The writer owns a growing `Vec<u8>`; each method is modelled as the byte list
it appends, and a writer's final buffer is the concatenation of those lists. -/

/-- Loop of `PacketWriter::write_var_int` on the `u32` pattern `n` (`n < 2^32`
whenever it is reached from an `i32` value).  The test
`(current_value & !0x7F) == 0` holds iff no bit above the low seven is set,
i.e. `n < 128`; the continued byte `((current_value & 0x7F) | 0x80) as u8` is
`n % 128 + 128`; the logical shift `(current_value as u32) >> 7` is
`n / 128`. -/
def writeVarIntBytes (n : Nat) : List Nat :=
  if n < 128 then [n]
  else (n % 128 + 128) :: writeVarIntBytes (n / 128)
termination_by n
decreasing_by exact Nat.div_lt_self (by omega) (by omega)

/-- `PacketWriter::write_var_int` on an `i32` value. -/
def writeVarInt (v : Int) : List Nat := writeVarIntBytes (u32Pattern v)

/-- `PacketWriter::write_boolean`. -/
def writeBoolean (b : Bool) : List Nat := [if b then 1 else 0]

/-- `PacketWriter::write_int`: four big-endian bytes of the `i32` pattern
(`(value >> k) & 0xFF` extracts the pattern's byte at bit offset `k`). -/
def writeInt (v : Int) : List Nat :=
  [(u32Pattern v >>> 24) &&& 0xFF, (u32Pattern v >>> 16) &&& 0xFF,
   (u32Pattern v >>> 8) &&& 0xFF, u32Pattern v &&& 0xFF]

/-- Big-endian bytes of a `u64` pattern, as pushed by
`PacketWriter::write_long`. -/
def writeLongBytes (p : Nat) : List Nat :=
  [(p >>> 56) &&& 0xFF, (p >>> 48) &&& 0xFF, (p >>> 40) &&& 0xFF,
   (p >>> 32) &&& 0xFF, (p >>> 24) &&& 0xFF, (p >>> 16) &&& 0xFF,
   (p >>> 8) &&& 0xFF, p &&& 0xFF]

/-- `PacketWriter::write_long` on an `i64` value. -/
def writeLong (v : Int) : List Nat := writeLongBytes (u64Pattern v)

/-- `PacketWriter::write_float`: the four big-endian bytes of the IEEE-754
single bit pattern.  Takes the pattern directly; the only floats the source
writes are the literals `0.05`, `0.1` and `0.0`, whose patterns appear below. -/
def writeFloatBits (bits : Nat) : List Nat :=
  [(bits >>> 24) &&& 0xFF, (bits >>> 16) &&& 0xFF, (bits >>> 8) &&& 0xFF, bits &&& 0xFF]

/-- IEEE-754 single bit pattern of the literal `0.05f32`. -/
def f32Bits005 : Nat := 0x3D4CCCCD

/-- IEEE-754 single bit pattern of the literal `0.1f32`. -/
def f32Bits01 : Nat := 0x3DCCCCCD

/-- IEEE-754 single bit pattern of the literal `0f32`. -/
def f32Bits0 : Nat := 0

/-- `PacketWriter::write_position`: packs
`((x as i64 & 0x3FFFFFF) << 38) | ((z as i64 & 0x3FFFFFF) << 12) | (y as i64 & 0xFFF)`
and writes it with `write_long`.  Masking an `i64`'s two's-complement pattern
with `0x3FFFFFF` (resp. `0xFFF`) yields the value's low 26 (resp. 12) bits,
i.e. `(· % 2^26).toNat` (resp. `% 2^12`) on the mathematical integer. -/
def packedPosition (x : Int) (y : Int) (z : Int) : Nat :=
  (((x % (2 ^ 26 : Int)).toNat <<< 38) ||| ((z % (2 ^ 26 : Int)).toNat <<< 12)) |||
    (y % (2 ^ 12 : Int)).toNat

/-- The bytes emitted by `PacketWriter::write_position`. -/
def writePosition (x : Int) (y : Int) (z : Int) : List Nat :=
  writeLong (i64ofPattern (packedPosition x y z))

/-- `PacketWriter::write_string`: `write_var_int(str.len() as i32)` followed by
the string's UTF-8 bytes (the argument is already the byte list). -/
def writeStringBytes (s : List Nat) : List Nat :=
  writeVarIntBytes (s.length % 2 ^ 32) ++ s

/-- `PacketWriter::write_uuid`: the two 64-bit halves written most significant
first (`as_u64_pair`, each half cast `as i64` into `write_long`). -/
def writeUuidBytes (u : Nat × Nat) : List Nat :=
  writeLong (i64ofPattern u.1) ++ writeLong (i64ofPattern u.2)

/-- Byte list of an ASCII string literal from the source (for ASCII text the
UTF-8 bytes are exactly the character codes). -/
def strBytes (s : String) : List Nat := s.data.map Char.toNat

/-! ### Packet type registry -/

/-- `SERVERBOUND_PACKET_TYPES`: the static inbound map keyed by
`(state, id)`. -/
def serverboundPacketTypes (state : ConnectionState) (id : Int) : Option PacketType :=
  if state = .handshake ∧ id = 0x00 then some .handshakeServerboundStart
  else if state = .status ∧ id = 0x00 then some .statusServerboundRequest
  else if state = .status ∧ id = 0x01 then some .statusServerboundPing
  else if state = .login ∧ id = 0x00 then some .loginServerboundStart
  else none

/-- `CLIENTBOUND_PACKET_TYPES`: the static outbound map keyed by type. -/
def clientboundPacketTypes (t : PacketType) : Option Int :=
  match t with
  | .statusClientboundResponse => some 0x00
  | .statusClientboundPong => some 0x01
  | .loginClientboundSuccess => some 0x02
  | .playClientboundLogin => some 0x28
  | .playClientboundDifficulty => some 0x0C
  | .playClientboundAbilities => some 0x34
  | .playClientboundSetDefaultSpawnPosition => some 0x50
  | _ => none

/-- `Packet::packet_id_to_type`. -/
def packetIdToType (id : Int) (state : ConnectionState) : RResult PacketType :=
  match serverboundPacketTypes state id with
  | some t => .ok t
  | none => .err (.invalidPacketId id state)

/-- `Packet::packet_type_to_id`. -/
def packetTypeToId (t : PacketType) : RResult Int :=
  match clientboundPacketTypes t with
  | some i => .ok i
  | none => .err (.invalidClientboundPacket t)

/-- `PacketWriter::write_packet_type`: the outbound id as a varint.  The
`.expect("sending invalid packet")` is unreachable for every type the source
sends (all are in the outbound map); the unregistered case is modelled as the
empty write. -/
def writePacketTypeBytes (t : PacketType) : List Nat :=
  match clientboundPacketTypes t with
  | some i => writeVarInt i
  | none => []

/-! ### Frame decoding (`Packet`) -/

/-- `Packet` from src/packet.rs: payload bytes, total consumed span, and the
resolved type. -/
structure Packet where
  data : List Nat
  rawSize : Nat
  packetType : PacketType
deriving DecidableEq, Repr

namespace Packet

/-- `Packet::read`.  Faithful to the source including its flaw: after the
declared `length` passed the `length > left_to_read` check, the payload size
is computed as `(length as usize) - packet_id_size`.  With release-mode
(wrapping) semantics a negative `length`, or a `length` smaller than the id's
byte size, wraps to a huge `usize`; the subsequent `vec![0; huge]` allocation
and the `.expect("this should not happen")` on `try_read_all`'s error are both
panics, modelled by `crash`.  (Debug builds panic already at the
subtraction.) -/
def read (r : PacketReader) (state : ConnectionState) : RResult (Packet × PacketReader) :=
  let packetBeginning := r.readerIndex
  if r.leftToRead < 1 then .err .packetTooSmall
  else
    match r.readVarint with
    | .ok (length, r1) =>
      if length > i32ofPattern (r1.leftToRead % 2 ^ 32) then .err .packetTooSmall
      else
        match r1.readVarintWithSize with
        | .ok ((packetId, packetIdSize), r2) =>
          match packetIdToType packetId state with
          | .ok packetType =>
            let bufferLength := usizeSub (usizeOfI32 length) packetIdSize
            match r2.tryReadAll bufferLength with
            | .ok (buffer, r3) =>
              .ok (⟨buffer, r3.readerIndex - packetBeginning, packetType⟩, r3)
            | _ => .crash
          | .err e => .err e
          | .crash => .crash
        | .err e => .err e
        | .crash => .crash
    | .err e => .err e
    | .crash => .crash

/-- `Packet::decode`: run `read` on a fresh reader over the buffer. -/
def decode (buf : List Nat) (state : ConnectionState) : RResult Packet :=
  match read (PacketReader.create buf) state with
  | .ok (p, _) => .ok p
  | .err e => .err e
  | .crash => .crash

end Packet

/-! ### Connection state machine (src/connection.rs)

A `Connection` is modelled by the fields the core logic mutates: the
accumulation buffer `currentPacket`, the `state`, plus the observable effects
on the transport — the list of written frames `out` and the number of
`stream.shutdown()` calls.  The transport itself (socket readiness, I/O
errors) stays outside the model; `dataRead` takes the freshly arrived bytes
as an argument (the source drains them from `temp_buffer`). -/
structure Connection where
  currentPacket : List Nat
  state : ConnectionState
  out : List (List Nat)
  shutdowns : Nat
deriving DecidableEq, Repr

/-- `Connection::disconnect`: a no-op when already disconnected, otherwise set
the state and shut the stream down. -/
def disconnect (c : Connection) : Connection :=
  if c.state = .disconnected then c
  else { c with state := .disconnected, shutdowns := c.shutdowns + 1 }

/-- `Connection::send_packet`: frame the writer's bytes with a leading
`write_var_int(packet.len() as i32)` and write them to the stream. -/
def sendPacket (c : Connection) (w : List Nat) : Connection :=
  { c with out := c.out ++ [writeVarIntBytes (w.length % 2 ^ 32) ++ w] }

/-- The fixed JSON status document from the `StatusServerboundRequest` handler
(braces written as `\x7b`/`\x7d`). -/
def statusJson : String :=
  "\x7b\n    \"version\": \x7b\n        \"name\": \"1.19.4\",\n        \"protocol\": 762\n    \x7d,\n    \"players\": \x7b\n        \"max\": 100,\n        \"online\": 5,\n        \"sample\": []\n    \x7d,\n    \"description\": \x7b\n        \"text\": \"Hello world\"\n    \x7d\n\x7d"

/-- Bytes of the status JSON document. -/
def statusJsonBytes : List Nat := strBytes statusJson

/-- Bytes of the string literal `"minecraft:world"`. -/
def dimensionIdBytes : List Nat := strBytes "minecraft:world"

/-- The hardcoded NBT blob: the base64 constant of the login handler,
decoded. -/
def nbtBytes : List Nat :=
  [10, 0, 0, 10, 0, 19] ++ strBytes "minecraft:chat_type" ++ [0, 10, 0, 24] ++
    strBytes "minecraft:dimension_type" ++ [0, 10, 0, 24] ++
    strBytes "minecraft:worldgen/biome" ++ [0, 0]

/-- The body of the single `StatusClientboundResponse` packet the status
handler sends. -/
def statusResponseBody : List Nat :=
  writePacketTypeBytes .statusClientboundResponse ++ writeStringBytes statusJsonBytes

/-- The framed bytes `send_packet` puts on the wire for the status
response. -/
def statusResponseFrame : List Nat :=
  writeVarIntBytes (statusResponseBody.length % 2 ^ 32) ++ statusResponseBody

/-- Result of `Connection::handle_packet`: the handler either completes with
the mutated connection or panics (every payload read in the source ends in
`.unwrap()`). -/
inductive HResult where
  | ok : Connection → HResult
  | crash : HResult
deriving DecidableEq, Repr

/-- `Connection::handle_packet`.  `freshUuid` models the `Uuid::new_v4()`
drawn when a login request carries no uuid.  Each `.unwrap()` on a failed
read is a panic (`crash`). -/
def handlePacket (c : Connection) (freshUuid : Nat × Nat) (packet : Packet) : HResult :=
  match packet.packetType with
  | .handshakeServerboundStart =>
    match (PacketReader.create packet.data).readVarint with
    | .ok (_protocolVersion, r1) =>
      match r1.readString 255 with
      | .ok (_host, r2) =>
        match r2.readShort with
        | .ok (_port, r3) =>
          match r3.readVarint with
          | .ok (nextState, _) =>
            if nextState = 1 then .ok { c with state := .status }
            else if nextState = 2 then .ok { c with state := .login }
            else .ok (disconnect c)
          | _ => .crash
        | _ => .crash
      | _ => .crash
    | _ => .crash
  | .statusServerboundRequest =>
    .ok (sendPacket c statusResponseBody)
  | .statusServerboundPing =>
    match (PacketReader.create packet.data).readLong with
    | .ok (value, _) =>
      .ok (sendPacket c (writePacketTypeBytes .statusClientboundPong ++ writeLong value))
    | _ => .crash
  | .loginServerboundStart =>
    match (PacketReader.create packet.data).readString 16 with
    | .ok (name, r1) =>
      match r1.readOptional (fun r => r.readUuid) with
      | .ok (uuidOpt, _) =>
        let uuid := match uuidOpt with
          | some id => id
          | none => freshUuid
        let c1 := sendPacket c
          (writePacketTypeBytes .loginClientboundSuccess ++ writeUuidBytes uuid ++
            writeStringBytes name ++ writeVarIntBytes 0)
        let c2 := { c1 with state := ConnectionState.play }
        let c3 := sendPacket c2
          (writePacketTypeBytes .playClientboundLogin ++ writeInt 12 ++
            writeBoolean false ++ [0] ++ [0] ++ writeVarIntBytes 1 ++
            writeStringBytes dimensionIdBytes ++ nbtBytes ++
            writeStringBytes dimensionIdBytes ++ writeStringBytes dimensionIdBytes ++
            writeLong 0x7D42D4473EB771F9 ++ writeVarIntBytes 0 ++
            writeVarIntBytes 10 ++ writeVarIntBytes 10 ++
            writeBoolean false ++ writeBoolean true ++ writeBoolean false ++
            writeBoolean false ++ writeBoolean false)
        let c4 := sendPacket c3
          (writePacketTypeBytes .playClientboundDifficulty ++ [2] ++ writeBoolean false)
        let c5 := sendPacket c4
          (writePacketTypeBytes .playClientboundAbilities ++ [0] ++
            writeFloatBits f32Bits005 ++ writeFloatBits f32Bits01)
        let c6 := sendPacket c5
          (writePacketTypeBytes .playClientboundSetDefaultSpawnPosition ++
            writePosition 0 100 0 ++ writeFloatBits f32Bits0)
        .ok c6
      | _ => .crash
    | _ => .crash
  | _ => .ok (disconnect c)

/-- Result of `Connection::try_to_parse_packet` / `data_read`: the mutated
connection together with completion, a propagated connection error
(`ConnectionError::Other` wrapping a decode error), or a panic. -/
inductive ParseResult where
  | ok : Bool → Connection → ParseResult
  | connError : Connection → DecodingError → ParseResult
  | crash : ParseResult
deriving DecidableEq, Repr

/-- `Connection::try_to_parse_packet`: decode against the accumulation buffer;
on success drain the consumed span and dispatch; `PacketTooSmall` means
"no complete frame yet" (`Ok(false)`), anything else is a connection error. -/
def tryToParsePacket (c : Connection) (u : Nat × Nat) : ParseResult :=
  match Packet.decode c.currentPacket c.state with
  | .ok packet =>
    let c1 := { c with currentPacket := c.currentPacket.drop packet.rawSize }
    match handlePacket c1 u packet with
    | .ok c2 => .ok true c2
    | .crash => .crash
  | .err .packetTooSmall => .ok false c
  | .err e => .connError c e
  | .crash => .crash

/-! ### Cursor-progress helper lemmas (needed for the loop's termination) -/

theorem tryReadOne_ok_cursor {r : PacketReader} {b : Nat} {r' : PacketReader}
    (h : r.tryReadOne = .ok (b, r')) :
    r'.buf = r.buf ∧ r'.readerIndex = r.readerIndex + 1 := by
  simp only [PacketReader.tryReadOne, PacketReader.readOneUnsafe] at h
  split at h
  · cases h
  · split at h
    · cases h
      exact ⟨rfl, rfl⟩
    · cases h

theorem readVarintAux_ok_cursor {r : PacketReader} {value position p : Nat}
    {r' : PacketReader} (h : PacketReader.readVarintAux r value position = .ok (p, r')) :
    r'.buf = r.buf ∧ r.readerIndex < r'.readerIndex := by
  rw [PacketReader.readVarintAux] at h
  cases htro : r.tryReadOne with
  | ok br =>
    obtain ⟨b, r1⟩ := br
    rw [htro] at h
    dsimp only at h
    by_cases hstop : b &&& 128 = 0
    · rw [if_pos hstop] at h
      cases h
      obtain ⟨hb, hi⟩ := tryReadOne_ok_cursor htro
      exact ⟨hb, by omega⟩
    · rw [if_neg hstop] at h
      by_cases hbig : position + 7 ≥ 32
      · rw [if_pos hbig] at h
        cases h
      · rw [if_neg hbig] at h
        obtain ⟨hb, hi⟩ := tryReadOne_ok_cursor htro
        obtain ⟨hb', hi'⟩ := readVarintAux_ok_cursor h
        exact ⟨hb'.trans hb, by omega⟩
  | err e =>
    rw [htro] at h
    cases h
  | crash =>
    rw [htro] at h
    cases h
termination_by 32 - position
decreasing_by omega

theorem readVarint_ok_cursor {r : PacketReader} {v : Int} {r' : PacketReader}
    (h : r.readVarint = .ok (v, r')) :
    r'.buf = r.buf ∧ r.readerIndex < r'.readerIndex := by
  simp only [PacketReader.readVarint] at h
  split at h
  case _ heq =>
    cases h
    exact readVarintAux_ok_cursor heq
  · cases h
  · cases h

theorem readVarintWithSize_ok_cursor {r : PacketReader} {v : Int} {n : Nat}
    {r' : PacketReader} (h : r.readVarintWithSize = .ok ((v, n), r')) :
    r'.buf = r.buf ∧ r.readerIndex < r'.readerIndex := by
  simp only [PacketReader.readVarintWithSize] at h
  split at h
  case _ heq =>
    cases h
    exact readVarint_ok_cursor heq
  · cases h
  · cases h

theorem tryReadAll_ok_cursor {r : PacketReader} {len : Nat} {bs : List Nat}
    {r' : PacketReader} (h : r.tryReadAll len = .ok (bs, r')) :
    r'.buf = r.buf ∧ r'.readerIndex = r.readerIndex + len := by
  simp only [PacketReader.tryReadAll, PacketReader.ensureAtLeast] at h
  split at h
  · cases h
    exact ⟨rfl, rfl⟩
  · cases h
  · cases h

/-- A successfully decoded packet consumed at least one byte, out of a
nonempty buffer. -/
theorem decode_ok_consumed {buf : List Nat} {st : ConnectionState} {p : Packet}
    (h : Packet.decode buf st = .ok p) : 1 ≤ p.rawSize ∧ 1 ≤ buf.length := by
  simp only [Packet.decode] at h
  split at h
  case _ pr heq =>
    cases h
    simp only [Packet.read, PacketReader.create, PacketReader.leftToRead] at heq
    split at heq
    · cases heq
    case _ hne =>
      split at heq
      case _ length r1 hv =>
        split at heq
        · cases heq
        · split at heq
          case _ packetId packetIdSize r2 hvs =>
            split at heq
            · split at heq
              case _ buffer r3 hra =>
                cases heq
                obtain ⟨hb1, hi1⟩ := readVarint_ok_cursor hv
                obtain ⟨hb2, hi2⟩ := readVarintWithSize_ok_cursor hvs
                obtain ⟨hb3, hi3⟩ := tryReadAll_ok_cursor hra
                refine ⟨by simp; omega, by omega⟩
              · cases heq
            · cases heq
            · cases heq
          · cases heq
          · cases heq
      · cases heq
      · cases heq
  · cases h
  · cases h

/-- `handle_packet` never touches the accumulation buffer. -/
theorem handlePacket_currentPacket {c : Connection} {u : Nat × Nat} {p : Packet}
    {c' : Connection} (h : handlePacket c u p = .ok c') :
    c'.currentPacket = c.currentPacket := by
  unfold handlePacket at h
  repeat' split at h
  all_goals cases h
  all_goals simp [disconnect, sendPacket]
  all_goals split <;> rfl

/-- A successful parse step that dispatched a packet strictly shrank the
accumulation buffer. -/
theorem tryToParsePacket_true_shrink {c : Connection} {u : Nat × Nat}
    {c' : Connection} (h : tryToParsePacket c u = .ok true c') :
    c'.currentPacket.length < c.currentPacket.length := by
  simp only [tryToParsePacket] at h
  split at h
  case _ packet heq =>
    split at h
    case _ c2 hh =>
      cases h
      have hd := decode_ok_consumed heq
      have hp := handlePacket_currentPacket hh
      simp only [hp, List.length_drop]
      omega
    · cases h
  · cases h
  · cases h
  · cases h

/-- Result of the `data_read` decode loop: the final connection, a
connection error carrying the connection as mutated so far, or a panic. -/
inductive LoopResult where
  | ok : Connection → LoopResult
  | connError : Connection → DecodingError → LoopResult
  | crash : LoopResult
deriving DecidableEq, Repr

/-- The `loop` inside `Connection::data_read`: stop as soon as the state is
`Disconnected`; otherwise parse packets until `try_to_parse_packet` reports
no complete frame (`Ok(false)`) or fails. -/
def connLoop (u : Nat × Nat) (c : Connection) : LoopResult :=
  if c.state = .disconnected then .ok c
  else
    match h : tryToParsePacket c u with
    | .ok true c' => connLoop u c'
    | .ok false c' => .ok c'
    | .connError c' e => .connError c' e
    | .crash => .crash
termination_by c.currentPacket.length
decreasing_by exact tryToParsePacket_true_shrink h

/-- One-step unfolding of `connLoop` (the definitional equation, freed of the
dependent match used for the termination argument). -/
theorem connLoop_eq (u : Nat × Nat) (c : Connection) : connLoop u c =
    (if c.state = .disconnected then .ok c
    else match tryToParsePacket c u with
      | .ok true c' => connLoop u c'
      | .ok false c' => .ok c'
      | .connError c' e => .connError c' e
      | .crash => .crash) := by
  rw [connLoop]
  by_cases hd : c.state = .disconnected
  · simp [hd]
  · rw [if_neg hd, if_neg hd]
    split <;> rename_i heq <;> rw [heq]

/-- `Connection::data_read`: nothing to do when no bytes arrived, otherwise
append the arrived bytes to the accumulation buffer and run the decode
loop. -/
def dataRead (c : Connection) (bytes : List Nat) (u : Nat × Nat) : LoopResult :=
  if bytes.isEmpty then .ok c
  else connLoop u { c with currentPacket := c.currentPacket ++ bytes }

/-- One iteration of `Connection::process` around `data_read`: a connection
error from the read path is answered with an orderly `disconnect`; a panic
propagates (it aborts the connection's task). -/
def processData (c : Connection) (bytes : List Nat) (u : Nat × Nat) : LoopResult :=
  match dataRead c bytes u with
  | .ok c' => .ok c'
  | .connError c' _ => .ok (disconnect c')
  | .crash => .crash

/-- The phase transitions the connection code can take in one handler or
disconnect step: stay put, `Handshake → Status`, `Handshake → Login`,
`Login → Play`, or any phase to `Disconnected`. -/
def phaseEdge (s s' : ConnectionState) : Prop :=
  s' = s ∨
    (s = .handshake ∧ (s' = .status ∨ s' = .login)) ∨
    (s = .login ∧ s' = .play) ∨
    s' = .disconnected

/-- Reflexive-transitive closure of `phaseEdge`, spelled out over the five
phases. -/
def phaseReach (s s' : ConnectionState) : Prop :=
  s = s' ∨ s' = .disconnected ∨ s = .handshake ∨ (s = .login ∧ s' = .play)

/-! ### Theorems for the claims -/

/-- **C1.**  The frame decoder does *not* always return a packet, an
Incomplete signal or an error: on the two-byte buffer `[0x00, 0x00]` in phase
Handshake (declared length 0, a valid one-byte packet id) the payload size
`(length as usize) - packet_id_size` underflows and the decoder panics; the
same happens for a negative declared length (`[0xFF,0xFF,0xFF,0xFF,0x0F]`
encodes -1). -/
theorem decode_crashes_on_short_declared_length :
    Packet.decode [0x00, 0x00] .handshake = .crash ∧
      Packet.decode [0xFF, 0xFF, 0xFF, 0xFF, 0x0F, 0x00] .handshake = .crash := by
  constructor <;>
    simp +decide [Packet.decode, Packet.read, PacketReader.create, PacketReader.leftToRead,
      PacketReader.readVarint, PacketReader.readVarintAux, PacketReader.tryReadOne,
      PacketReader.readOneUnsafe, PacketReader.readVarintWithSize, packetIdToType,
      serverboundPacketTypes, i32ofPattern, usizeOfI32, usizeSub,
      PacketReader.tryReadAll, PacketReader.ensureAtLeast]

/-- **C3.**  When the decoder reports Incomplete (`PacketTooSmall`), the parse
step returns `Ok(false)` with the connection — accumulation buffer included —
completely unchanged, so the caller retries the identical decode later. -/
theorem incomplete_consumes_nothing (c : Connection) (u : Nat × Nat)
    (h : Packet.decode c.currentPacket c.state = .err .packetTooSmall) :
    tryToParsePacket c u = .ok false c := by
  simp only [tryToParsePacket, h]

/-- Witness for C3 at a concrete buffer holding only a partial length varint
(`[0x80]`, continuation bit set). -/
theorem incomplete_consumes_nothing_witness :
    tryToParsePacket ⟨[0x80], .handshake, [], 0⟩ (0, 0) =
      .ok false ⟨[0x80], .handshake, [], 0⟩ :=
  incomplete_consumes_nothing ⟨[0x80], .handshake, [], 0⟩ (0, 0)
    (by simp +decide [Packet.decode, Packet.read, PacketReader.create,
      PacketReader.leftToRead, PacketReader.readVarint, PacketReader.readVarintAux,
      PacketReader.tryReadOne, PacketReader.readOneUnsafe])

/-- **C4.**  `read_long` checks only two bytes (`ensure_at_least(2)`) before
its eight unchecked reads: on a buffer with exactly two bytes remaining the
third read indexes out of bounds and panics instead of returning an error;
`read_uuid` (two longs) inherits the same panic. -/
theorem readLong_crashes_on_two_bytes :
    PacketReader.readLong ⟨[0x00, 0x00], 0⟩ = .crash ∧
      PacketReader.readUuid ⟨[0x00, 0x00], 0⟩ = .crash := by
  constructor <;>
    simp +decide [PacketReader.readLong, PacketReader.readUuid,
      PacketReader.ensureAtLeast, PacketReader.readOneUnsafe]

/-- After `disconnect` the state is always `Disconnected`. -/
theorem disconnect_state (c : Connection) : (disconnect c).state = .disconnected := by
  unfold disconnect
  split
  · assumption
  · rfl

/-- **C5, counterexample.**  A protocol violation found while the login
handler reads its payload — here a name whose declared length 17 exceeds the
field's bound 16 — does *not* end in an orderly disconnect: the handler's
`.unwrap()` panics. -/
theorem handler_panics_on_oversized_name :
    handlePacket ⟨[], .login, [], 0⟩ (0, 0) ⟨[0x11], 2, .loginServerboundStart⟩ = .crash := by
  simp +decide [handlePacket, PacketReader.create, PacketReader.readString,
    PacketReader.readVarint, PacketReader.readVarintAux, PacketReader.tryReadOne,
    PacketReader.readOneUnsafe, i32ofPattern, usizeOfI32]

/-- **C5, amended.**  Violations surfacing as decode errors in the framing
layer do end in an orderly disconnect (the process loop answers the
connection error with `disconnect`, leaving the state `Disconnected`), while
a panic inside a handler's payload reads propagates as a panic of the
connection's task with no disconnect. -/
theorem framing_violation_disconnects (c : Connection) (bytes : List Nat)
    (u : Nat × Nat) :
    (∀ c' e, dataRead c bytes u = .connError c' e →
        processData c bytes u = .ok (disconnect c') ∧
          (disconnect c').state = .disconnected) ∧
      (dataRead c bytes u = .crash → processData c bytes u = .crash) := by
  constructor
  · intro c' e h
    exact ⟨by simp only [processData, h], disconnect_state c'⟩
  · intro h
    simp only [processData, h]

/-- Witness for the amended C5: an id that is invalid for phase Play
(`[0x01, 0x00]`, a well-formed frame with id `0x00`) yields a connection
error, answered by an orderly disconnect. -/
theorem framing_violation_disconnects_witness :
    processData ⟨[], .play, [], 0⟩ [0x01, 0x00] (0, 0) =
        .ok (disconnect ⟨[0x01, 0x00], .play, [], 0⟩) ∧
      (disconnect ⟨[0x01, 0x00], .play, [], 0⟩).state = .disconnected :=
  (framing_violation_disconnects ⟨[], .play, [], 0⟩ [0x01, 0x00] (0, 0)).1
    ⟨[0x01, 0x00], .play, [], 0⟩ (.invalidPacketId 0 .play)
    (by simp +decide [dataRead, connLoop_eq, tryToParsePacket, Packet.decode, Packet.read,
      PacketReader.create, PacketReader.leftToRead, PacketReader.readVarint,
      PacketReader.readVarintAux, PacketReader.tryReadOne, PacketReader.readOneUnsafe,
      PacketReader.readVarintWithSize, packetIdToType, serverboundPacketTypes,
      i32ofPattern, usizeOfI32, usizeSub, PacketReader.tryReadAll,
      PacketReader.ensureAtLeast])

/-- **C9.**  A status request handled in phase Status sends exactly one
outbound packet — the status response framed around the fixed JSON document —
and leaves the phase at Status. -/
theorem status_request_single_response (c : Connection) (u : Nat × Nat)
    (data : List Nat) (n : Nat) (h : c.state = .status) :
    handlePacket c u ⟨data, n, .statusServerboundRequest⟩ =
        .ok { c with out := c.out ++ [statusResponseFrame] } ∧
      ({ c with out := c.out ++ [statusResponseFrame] } : Connection).state = .status := by
  exact ⟨by simp [handlePacket, sendPacket, statusResponseFrame], h⟩

/-- Witness for C9 at a concrete connection in phase Status. -/
theorem status_request_single_response_witness :
    handlePacket ⟨[], .status, [], 0⟩ (0, 0) ⟨[], 2, .statusServerboundRequest⟩ =
        .ok ⟨[], .status, [statusResponseFrame], 0⟩ ∧
      (⟨[], .status, [statusResponseFrame], 0⟩ : Connection).state = .status :=
  status_request_single_response ⟨[], .status, [], 0⟩ (0, 0) [] 2 rfl

/-- `v ||| (g <<< k) = v + g * 2^k` when `v` fits below bit `k`. -/
theorem lor_shiftLeft_add {v g k : Nat} (hv : v < 2 ^ k) :
    v ||| (g <<< k) = v + g * 2 ^ k := by
  rw [Nat.shiftLeft_eq, Nat.lor_comm, Nat.mul_comm g (2 ^ k), ← Nat.mul_add_lt_is_or hv]
  ring

/-- Reinterpreting a 64-bit pattern as `i64` and taking its `u64` pattern is
the identity. -/
theorem u64Pattern_i64ofPattern {v : Nat} (h : v < 2 ^ 64) :
    u64Pattern (i64ofPattern v) = v := by
  unfold u64Pattern i64ofPattern
  split <;> omega

/-- Masking with `0x7F` is reduction mod 128. -/
theorem and_127_eq_mod (b : Nat) : b &&& 127 = b % 128 := by
  simpa using Nat.and_pow_two_sub_one_eq_mod b 7

/-- A value below 128 has a clear continuation bit. -/
theorem and_128_of_lt {n : Nat} (h : n < 128) : n &&& 128 = 0 := by
  have := Nat.and_two_pow n 7
  rw [Nat.testBit_lt_two_pow (by simpa using h)] at this
  simpa using this

/-- A continued varint byte `m + 128` (with `m < 128`) has its continuation
bit set. -/
theorem and_128_of_cont {m : Nat} (h : m < 128) : (m + 128) &&& 128 = 128 := by
  have := Nat.and_two_pow (m + 128) 7
  have ht : (m + 128).testBit 7 = true := by
    rw [Nat.testBit_to_div_mod]
    have : (m + 128) / 128 = 1 := by omega
    simp [this]
  rw [ht] at this
  simpa using this

/-- Reading one byte at the junction of an append. -/
theorem tryReadOne_append (pre : List Nat) (b : Nat) (rest : List Nat) :
    PacketReader.tryReadOne ⟨pre ++ b :: rest, pre.length⟩ =
      .ok (b, ⟨pre ++ b :: rest, pre.length + 1⟩) := by
  unfold PacketReader.tryReadOne PacketReader.readOneUnsafe
  dsimp only
  have hlen : pre.length < (pre ++ b :: rest).length := by simp
  rw [if_neg (by omega), if_pos hlen]
  have hgd : (pre ++ b :: rest).getD pre.length 0 = b := by
    rw [List.getD_eq_getElem?_getD, List.getElem?_append_right (Nat.le_refl _)]
    simp
  rw [hgd]

/-- A varint encoding is never empty. -/
theorem writeVarIntBytes_length_pos (n : Nat) : 1 ≤ (writeVarIntBytes n).length := by
  rw [writeVarIntBytes]
  split <;> simp

/-- A value below `2^(7m)` encodes in at most `m` varint bytes. -/
theorem writeVarIntBytes_length_le (m : Nat) :
    ∀ n : Nat, n < 2 ^ (7 * m) → 1 ≤ m → (writeVarIntBytes n).length ≤ m := by
  induction m with
  | zero => omega
  | succ m ih =>
    intro n hn _
    rw [writeVarIntBytes]
    split
    · simp
    · rename_i h128
      have hm : 1 ≤ m := by
        by_contra hm0
        have : m = 0 := by omega
        subst this
        simp at hn
        omega
      have hdiv : n / 128 < 2 ^ (7 * m) := by
        rw [Nat.div_lt_iff_lt_mul (by norm_num)]
        calc n < 2 ^ (7 * (m + 1)) := hn
          _ = 2 ^ (7 * m) * 128 := by
            rw [show 7 * (m + 1) = 7 * m + 7 by ring, pow_add]
            norm_num
      have := ih (n / 128) hdiv hm
      simp [List.length_cons]
      omega

/-- Decoding a varint encoding placed after `pre` and before `rest` returns
exactly the encoded pattern combined into the accumulator, and stops right
after the encoding. -/
theorem readVarintAux_enc (n : Nat) (value position : Nat) (pre rest : List Nat)
    (hpos : position < 32) (hn : n < 2 ^ (32 - position)) (hv : value < 2 ^ position) :
    PacketReader.readVarintAux ⟨pre ++ writeVarIntBytes n ++ rest, pre.length⟩ value position
      = .ok (value + n * 2 ^ position,
          ⟨pre ++ writeVarIntBytes n ++ rest, pre.length + (writeVarIntBytes n).length⟩) := by
  have hpow : 2 ^ (32 - position) * 2 ^ position = 2 ^ 32 := by
    rw [← pow_add]
    congr 1
    omega
  have hPpos : 0 < 2 ^ position := Nat.pos_pow_of_pos position (by norm_num)
  rw [writeVarIntBytes]
  by_cases h128 : n < 128
  · rw [if_pos h128]
    rw [show (pre ++ [n] ++ rest : List Nat) = pre ++ n :: rest by simp]
    rw [PacketReader.readVarintAux]
    rw [tryReadOne_append pre n rest]
    dsimp only
    rw [and_127_eq_mod, Nat.mod_eq_of_lt h128, lor_shiftLeft_add hv]
    have hlt32 : value + n * 2 ^ position < 2 ^ 32 := by
      have h1 : (n + 1) * 2 ^ position ≤ 2 ^ (32 - position) * 2 ^ position :=
        Nat.mul_le_mul_right _ (by omega)
      rw [hpow] at h1
      have h2 : n * 2 ^ position + 2 ^ position = (n + 1) * 2 ^ position := by ring
      omega
    rw [Nat.mod_eq_of_lt hlt32, and_128_of_lt h128]
    simp
  · rw [if_neg h128]
    have h7 : 7 < 32 - position := by
      by_contra hc
      push_neg at hc
      have : 2 ^ (32 - position) ≤ 2 ^ 7 := Nat.pow_le_pow_right (by norm_num) hc
      omega
    rw [PacketReader.readVarintAux]
    rw [show pre ++ ((n % 128 + 128) :: writeVarIntBytes (n / 128)) ++ rest =
        pre ++ (n % 128 + 128) :: (writeVarIntBytes (n / 128) ++ rest) by simp]
    rw [tryReadOne_append pre (n % 128 + 128) (writeVarIntBytes (n / 128) ++ rest)]
    dsimp only
    rw [and_127_eq_mod]
    rw [show (n % 128 + 128) % 128 = n % 128 by omega]
    rw [lor_shiftLeft_add hv]
    have hlt32 : value + n % 128 * 2 ^ position < 2 ^ 32 := by
      have hP7 : 2 ^ (position + 7) = 2 ^ position * 128 := by
        rw [pow_add]
        norm_num
      have hle : 2 ^ (position + 7) ≤ 2 ^ 32 := Nat.pow_le_pow_right (by norm_num) (by omega)
      have hmod : n % 128 ≤ 127 := by omega
      have : n % 128 * 2 ^ position ≤ 127 * 2 ^ position :=
        Nat.mul_le_mul_right _ hmod
      omega
    rw [Nat.mod_eq_of_lt hlt32, and_128_of_cont (by omega)]
    rw [if_neg (by norm_num), if_neg (by omega)]
    have hbuf : pre ++ (n % 128 + 128) :: (writeVarIntBytes (n / 128) ++ rest) =
        (pre ++ [n % 128 + 128]) ++ writeVarIntBytes (n / 128) ++ rest := by
      simp
    have hidx : pre.length + 1 = (pre ++ [n % 128 + 128]).length := by
      simp
    rw [hbuf, hidx]
    have hdiv : n / 128 < 2 ^ (32 - (position + 7)) := by
      rw [Nat.div_lt_iff_lt_mul (by norm_num)]
      calc n < 2 ^ (32 - position) := hn
        _ = 2 ^ (32 - (position + 7)) * 128 := by
          rw [show (32 : Nat) - position = (32 - (position + 7)) + 7 by omega, pow_add]
          norm_num
    rw [readVarintAux_enc (n / 128) _ (position + 7) (pre ++ [n % 128 + 128]) rest
      (by omega) hdiv (by
        have hP7 : 2 ^ (position + 7) = 2 ^ position * 128 := by
          rw [pow_add]; norm_num
        have hmod : n % 128 ≤ 127 := by omega
        have : n % 128 * 2 ^ position ≤ 127 * 2 ^ position :=
          Nat.mul_le_mul_right _ hmod
        omega)]
    have hval : value + n % 128 * 2 ^ position + n / 128 * 2 ^ (position + 7) =
        value + n * 2 ^ position := by
      have hsplit : n % 128 + 128 * (n / 128) = n := Nat.mod_add_div n 128
      calc value + n % 128 * 2 ^ position + n / 128 * 2 ^ (position + 7)
          = value + (n % 128 + 128 * (n / 128)) * 2 ^ position := by
            rw [pow_add]
            ring
        _ = value + n * 2 ^ position := by rw [hsplit]
    rw [hval]
    have hlen : (pre ++ [n % 128 + 128]).length + (writeVarIntBytes (n / 128)).length =
        pre.length + ((n % 128 + 128) :: writeVarIntBytes (n / 128)).length := by
      simp
      omega
    rw [show (pre ++ [n % 128 + 128]) ++ writeVarIntBytes (n / 128) ++ rest =
        pre ++ (n % 128 + 128) :: writeVarIntBytes (n / 128) ++ rest by simp]
    rw [hlen]
termination_by n
decreasing_by exact Nat.div_lt_self (by omega) (by norm_num)

/-- Any `u32` pattern is below `2^32`. -/
theorem u32Pattern_lt (v : Int) : u32Pattern v < 2 ^ 32 := by
  unfold u32Pattern
  omega

/-- Reading an `i32`'s pattern back as signed is the identity on the `i32`
range. -/
theorem i32ofPattern_u32Pattern {x : Int} (h1 : -(2 ^ 31) ≤ x) (h2 : x < 2 ^ 31) :
    i32ofPattern (u32Pattern x) = x := by
  unfold i32ofPattern u32Pattern
  split <;> omega

/-- `read_varint` on a varint encoding embedded in a larger buffer. -/
theorem readVarint_enc (n : Nat) (hn : n < 2 ^ 32) (pre rest : List Nat) :
    PacketReader.readVarint ⟨pre ++ writeVarIntBytes n ++ rest, pre.length⟩
      = .ok (i32ofPattern n,
          ⟨pre ++ writeVarIntBytes n ++ rest, pre.length + (writeVarIntBytes n).length⟩) := by
  unfold PacketReader.readVarint
  rw [readVarintAux_enc n 0 0 pre rest (by norm_num) (by simpa using hn) (by norm_num)]
  simp

/-- `read_varint_with_size` on an embedded varint encoding: the size is the
encoding's length. -/
theorem readVarintWithSize_enc (n : Nat) (hn : n < 2 ^ 32) (pre rest : List Nat) :
    PacketReader.readVarintWithSize ⟨pre ++ writeVarIntBytes n ++ rest, pre.length⟩
      = .ok ((i32ofPattern n, (writeVarIntBytes n).length),
          ⟨pre ++ writeVarIntBytes n ++ rest, pre.length + (writeVarIntBytes n).length⟩) := by
  unfold PacketReader.readVarintWithSize
  rw [readVarint_enc n hn pre rest]
  simp

/-- **C2.**  VarInt round-trip: decoding the bytes `write_var_int` emits for
any signed 32-bit integer yields the integer back, consuming the whole
encoding; and the encoder emits at most five bytes. -/
theorem varint_roundtrip (x : Int) (h1 : -(2 ^ 31) ≤ x) (h2 : x < 2 ^ 31) :
    PacketReader.readVarint (PacketReader.create (writeVarInt x)) =
        .ok (x, ⟨writeVarInt x, (writeVarInt x).length⟩) ∧
      (writeVarInt x).length ≤ 5 := by
  constructor
  · have h := readVarint_enc (u32Pattern x) (u32Pattern_lt x) [] []
    simp only [List.nil_append, List.append_nil, Nat.zero_add, List.length_nil] at h
    unfold writeVarInt PacketReader.create
    rw [h, i32ofPattern_u32Pattern h1 h2]
  · exact writeVarIntBytes_length_le 5 (u32Pattern x)
      (lt_trans (u32Pattern_lt x) (by norm_num)) (by norm_num)

/-- Witness for C2 at `x = -1` (the worst case: five bytes). -/
theorem varint_roundtrip_witness :
    (PacketReader.readVarint (PacketReader.create (writeVarInt (-1))) =
        .ok (-1, ⟨writeVarInt (-1), (writeVarInt (-1)).length⟩) ∧
      (writeVarInt (-1)).length ≤ 5) :=
  varint_roundtrip (-1) (by norm_num) (by norm_num)

/-- **C7.**  `read_string` checks the decoded length prefix against the
caller's maximum before it looks at the buffer at all (`StringTooLarge`,
whatever `rest` holds); a within-bound prefix with a short buffer fails
`StringTooSmall`; and enough bytes that are not valid UTF-8 fail
`StringInvalidUtf8`. -/
theorem read_string_checks (sz : Nat) (rest : List Nat) (maxLength : Nat)
    (hsz : sz < 2 ^ 31) :
    (sz > maxLength →
        PacketReader.readString ⟨writeVarIntBytes sz ++ rest, 0⟩ maxLength =
          .err .stringTooLarge) ∧
      (sz ≤ maxLength → rest.length < sz →
        PacketReader.readString ⟨writeVarIntBytes sz ++ rest, 0⟩ maxLength =
          .err .stringTooSmall) ∧
      (sz ≤ maxLength → sz ≤ rest.length → utf8Valid (List.take sz rest) = false →
        PacketReader.readString ⟨writeVarIntBytes sz ++ rest, 0⟩ maxLength =
          .err .stringInvalidUtf8) := by
  have henc : PacketReader.readVarint ⟨writeVarIntBytes sz ++ rest, 0⟩
      = .ok (i32ofPattern sz,
          ⟨writeVarIntBytes sz ++ rest, 0 + (writeVarIntBytes sz).length⟩) := by
    have h := readVarint_enc sz (by omega) [] rest
    simpa using h
  have hid : i32ofPattern sz = (sz : Int) := by
    unfold i32ofPattern
    rw [if_pos (by exact_mod_cast hsz)]
  have husize : usizeOfI32 (sz : Int) = sz := by
    unfold usizeOfI32
    omega
  refine ⟨?_, ?_, ?_⟩
  · intro hgt
    unfold PacketReader.readString
    rw [henc, hid]
    dsimp only
    rw [husize, if_pos hgt]
  · intro hle hshort
    unfold PacketReader.readString
    rw [henc, hid]
    dsimp only
    rw [husize, if_neg (by omega)]
    unfold PacketReader.ensureAtLeast
    rw [if_pos (by simp; omega)]
  · intro hle hlong hbad
    unfold PacketReader.readString
    rw [henc, hid]
    dsimp only
    rw [husize, if_neg (by omega)]
    unfold PacketReader.ensureAtLeast
    rw [if_neg (by simp; omega)]
    dsimp only
    rw [Nat.zero_add, List.drop_left, hbad]
    simp

/-- Witness for C7: a 17-character prefix against a 16-character bound fails
too-large with an empty remainder; a 1-byte string of `0xFF` is invalid
UTF-8. -/
theorem read_string_checks_witness :
    PacketReader.readString ⟨writeVarIntBytes 17 ++ [], 0⟩ 16 = .err .stringTooLarge ∧
      PacketReader.readString ⟨writeVarIntBytes 1 ++ [0xFF], 0⟩ 16 =
        .err .stringInvalidUtf8 :=
  ⟨(read_string_checks 17 [] 16 (by norm_num)).1 (by norm_num),
    (read_string_checks 1 [0xFF] 16 (by norm_num)).2.2 (by norm_num) (by norm_num)
      (by decide)⟩

/-- **C6.**  Inbound resolution is keyed on phase and id: id `0x00` maps to
handshake-start under Handshake, status-request under Status, login-start
under Login, and fails with `InvalidPacketId(id, phase)` under Play and
Disconnected; moreover for every well-framed buffer (a length varint covering
an id varint plus the payload) the decoder either succeeds or fails with
exactly that lookup's `InvalidPacketId` — the lookup miss is the only
rejection of a well-framed packet. -/
theorem packet_id_scoping :
    packetIdToType 0 .handshake = .ok .handshakeServerboundStart ∧
      packetIdToType 0 .status = .ok .statusServerboundRequest ∧
      packetIdToType 0 .login = .ok .loginServerboundStart ∧
      packetIdToType 0 .play = .err (.invalidPacketId 0 .play) ∧
      packetIdToType 0 .disconnected = .err (.invalidPacketId 0 .disconnected) ∧
      (∀ (idp : Nat) (payload rest : List Nat) (st : ConnectionState),
        idp < 2 ^ 31 →
        (writeVarIntBytes idp).length + payload.length + rest.length < 2 ^ 31 →
        Packet.decode
            (writeVarIntBytes ((writeVarIntBytes idp).length + payload.length) ++
              writeVarIntBytes idp ++ payload ++ rest) st =
          match serverboundPacketTypes st idp with
          | some t =>
              .ok ⟨payload,
                (writeVarIntBytes ((writeVarIntBytes idp).length + payload.length)).length +
                  (writeVarIntBytes idp).length + payload.length, t⟩
          | none => .err (.invalidPacketId idp st)) := by
  refine ⟨by decide, by decide, by decide, by decide, by decide, ?_⟩
  intro idp payload rest st hid hlen
  have hLpos := writeVarIntBytes_length_pos ((writeVarIntBytes idp).length + payload.length)
  have hIpos := writeVarIntBytes_length_pos idp
  unfold Packet.decode Packet.read PacketReader.create
  dsimp only
  simp only [List.append_assoc]
  rw [if_neg (by
    simp only [PacketReader.leftToRead, List.length_append]
    omega)]
  have h1 : PacketReader.readVarint
      ⟨writeVarIntBytes ((writeVarIntBytes idp).length + payload.length) ++
        (writeVarIntBytes idp ++ (payload ++ rest)), 0⟩
      = .ok (i32ofPattern ((writeVarIntBytes idp).length + payload.length),
          ⟨writeVarIntBytes ((writeVarIntBytes idp).length + payload.length) ++
            (writeVarIntBytes idp ++ (payload ++ rest)),
            0 + (writeVarIntBytes ((writeVarIntBytes idp).length + payload.length)).length⟩) := by
    have h := readVarint_enc ((writeVarIntBytes idp).length + payload.length) (by omega) []
      (writeVarIntBytes idp ++ (payload ++ rest))
    simpa using h
  rw [h1]
  dsimp only
  rw [show i32ofPattern ((writeVarIntBytes idp).length + payload.length) =
      (((writeVarIntBytes idp).length + payload.length : Nat) : Int) by
    unfold i32ofPattern
    rw [if_pos (by exact_mod_cast (by omega : (writeVarIntBytes idp).length + payload.length < 2 ^ 31))]]
  rw [if_neg (by
    simp only [PacketReader.leftToRead, List.length_append]
    rw [show ((writeVarIntBytes ((writeVarIntBytes idp).length + payload.length)).length +
        ((writeVarIntBytes idp).length + (payload.length + rest.length)) -
        (0 + (writeVarIntBytes ((writeVarIntBytes idp).length + payload.length)).length)) % 2 ^ 32 =
        (writeVarIntBytes idp).length + payload.length + rest.length by omega]
    rw [show i32ofPattern ((writeVarIntBytes idp).length + payload.length + rest.length) =
        (((writeVarIntBytes idp).length + payload.length + rest.length : Nat) : Int) by
      unfold i32ofPattern
      rw [if_pos (by exact_mod_cast hlen)]]
    push_cast
    omega)]
  rw [show (0 + (writeVarIntBytes ((writeVarIntBytes idp).length + payload.length)).length) =
      ([] ++ writeVarIntBytes ((writeVarIntBytes idp).length + payload.length)).length by simp]
  rw [show writeVarIntBytes ((writeVarIntBytes idp).length + payload.length) ++
      (writeVarIntBytes idp ++ (payload ++ rest)) =
      ([] ++ writeVarIntBytes ((writeVarIntBytes idp).length + payload.length)) ++
        writeVarIntBytes idp ++ (payload ++ rest) by simp]
  rw [readVarintWithSize_enc idp (by omega)
    ([] ++ writeVarIntBytes ((writeVarIntBytes idp).length + payload.length)) (payload ++ rest)]
  dsimp only
  rw [show i32ofPattern idp = ((idp : Nat) : Int) by
    unfold i32ofPattern
    rw [if_pos (by exact_mod_cast hid)]]
  unfold packetIdToType
  cases hty : serverboundPacketTypes st (idp : Int) with
  | some t =>
    dsimp only
    have hbl : usizeSub (usizeOfI32 (((writeVarIntBytes idp).length + payload.length : Nat) : Int))
        (writeVarIntBytes idp).length = payload.length := by
      unfold usizeOfI32 usizeSub
      omega
    rw [hbl]
    unfold PacketReader.tryReadAll PacketReader.ensureAtLeast
    rw [if_neg (by
      simp only [List.length_append, List.length_nil]
      omega)]
    dsimp only
    have hdrop : List.drop
        ((writeVarIntBytes ((writeVarIntBytes idp).length + payload.length)).length +
          (writeVarIntBytes idp).length)
        (writeVarIntBytes ((writeVarIntBytes idp).length + payload.length) ++
          (writeVarIntBytes idp ++ (payload ++ rest))) = payload ++ rest := by
      rw [show writeVarIntBytes ((writeVarIntBytes idp).length + payload.length) ++
          (writeVarIntBytes idp ++ (payload ++ rest)) =
          (writeVarIntBytes ((writeVarIntBytes idp).length + payload.length) ++
            writeVarIntBytes idp) ++ (payload ++ rest) by simp]
      rw [show (writeVarIntBytes ((writeVarIntBytes idp).length + payload.length)).length +
          (writeVarIntBytes idp).length =
          (writeVarIntBytes ((writeVarIntBytes idp).length + payload.length) ++
            writeVarIntBytes idp).length by simp]
      exact List.drop_left _ _
    simp only [List.nil_append, List.length_append, List.length_nil, List.append_assoc,
      Nat.sub_zero, Nat.zero_add]
    rw [hdrop, List.take_left]
  | none =>
    dsimp only

/-- Witness for C6's framed part: a framed status ping (id `0x01`, an 8-byte
payload) under phase Status decodes to the ping packet with the whole frame
consumed. -/
theorem packet_id_scoping_witness :
    Packet.decode [0x09, 0x01, 1, 2, 3, 4, 5, 6, 7, 8] .status =
      .ok ⟨[1, 2, 3, 4, 5, 6, 7, 8], 10, .statusServerboundPing⟩ := by
  have h := packet_id_scoping.2.2.2.2.2 1 [1, 2, 3, 4, 5, 6, 7, 8] [] .status
    (by norm_num) (by rw [writeVarIntBytes]; norm_num)
  simpa +decide [writeVarIntBytes, serverboundPacketTypes] using h

/-- The packed position is the arithmetic sum of its three disjoint fields. -/
theorem packedPosition_eq (x y z : Int) :
    packedPosition x y z =
      (x % (2 ^ 26 : Int)).toNat * 2 ^ 38 + (z % (2 ^ 26 : Int)).toNat * 2 ^ 12 +
        (y % (2 ^ 12 : Int)).toNat := by
  have ha : (x % (2 ^ 26 : Int)).toNat < 2 ^ 26 := by omega
  have hb : (z % (2 ^ 26 : Int)).toNat < 2 ^ 26 := by omega
  have hc : (y % (2 ^ 12 : Int)).toNat < 2 ^ 12 := by omega
  unfold packedPosition
  rw [Nat.lor_comm ((x % (2 ^ 26 : Int)).toNat <<< 38) ((z % (2 ^ 26 : Int)).toNat <<< 12)]
  rw [lor_shiftLeft_add (by rw [Nat.shiftLeft_eq]; omega)]
  rw [Nat.lor_comm]
  rw [show (z % (2 ^ 26 : Int)).toNat <<< 12 + (x % (2 ^ 26 : Int)).toNat * 2 ^ 38 =
      ((z % (2 ^ 26 : Int)).toNat + (x % (2 ^ 26 : Int)).toNat * 2 ^ 26) <<< 12 by
    rw [Nat.shiftLeft_eq, Nat.shiftLeft_eq]; ring]
  rw [lor_shiftLeft_add hc]
  ring

/-- **C10.**  `write_position` packs the low 26 bits of X into bits 38–63,
the low 26 bits of Z into bits 12–37 and the low 12 bits of Y into bits 0–11
of a single 64-bit word, fields disjoint, emitted as eight big-endian bytes
by `write_long`. -/
theorem writePosition_layout (x y z : Int) :
    packedPosition x y z < 2 ^ 64 ∧
      packedPosition x y z / 2 ^ 38 = (x % (2 ^ 26 : Int)).toNat ∧
      packedPosition x y z / 2 ^ 12 % 2 ^ 26 = (z % (2 ^ 26 : Int)).toNat ∧
      packedPosition x y z % 2 ^ 12 = (y % (2 ^ 12 : Int)).toNat ∧
      writePosition x y z = writeLongBytes (packedPosition x y z) ∧
      (writePosition x y z).length = 8 := by
  have ha : (x % (2 ^ 26 : Int)).toNat < 2 ^ 26 := by omega
  have hb : (z % (2 ^ 26 : Int)).toNat < 2 ^ 26 := by omega
  have hc : (y % (2 ^ 12 : Int)).toNat < 2 ^ 12 := by omega
  have hv := packedPosition_eq x y z
  have hlt : packedPosition x y z < 2 ^ 64 := by omega
  refine ⟨hlt, by omega, by omega, by omega, ?_, ?_⟩
  · unfold writePosition writeLong
    rw [u64Pattern_i64ofPattern hlt]
  · unfold writePosition writeLong writeLongBytes
    rfl

/-- A successful inbound lookup pins down the (phase, type) pair. -/
theorem packetIdToType_ok_cases {id : Int} {st : ConnectionState} {t : PacketType}
    (h : packetIdToType id st = .ok t) :
    (st = .handshake ∧ t = .handshakeServerboundStart) ∨
      (st = .status ∧ (t = .statusServerboundRequest ∨ t = .statusServerboundPing)) ∨
      (st = .login ∧ t = .loginServerboundStart) := by
  unfold packetIdToType at h
  split at h
  case _ t' hty =>
    cases h
    unfold serverboundPacketTypes at hty
    split_ifs at hty <;> simp_all
  · cases h

/-- A successfully decoded packet's type is consistent with the phase it was
decoded under. -/
theorem decode_ok_type {buf : List Nat} {st : ConnectionState} {p : Packet}
    (h : Packet.decode buf st = .ok p) :
    (st = .handshake ∧ p.packetType = .handshakeServerboundStart) ∨
      (st = .status ∧ (p.packetType = .statusServerboundRequest ∨
        p.packetType = .statusServerboundPing)) ∨
      (st = .login ∧ p.packetType = .loginServerboundStart) := by
  simp only [Packet.decode] at h
  split at h
  case _ pr heq =>
    cases h
    simp only [Packet.read] at heq
    split at heq
    · cases heq
    · split at heq
      case _ length r1 hv =>
        split at heq
        · cases heq
        · split at heq
          case _ packetId packetIdSize r2 hvs =>
            split at heq
            case _ packetType hty =>
              split at heq
              case _ buffer r3 hra =>
                cases heq
                exact packetIdToType_ok_cases hty
              · cases heq
            · cases heq
            · cases heq
          · cases heq
          · cases heq
      · cases heq
      · cases heq
  · cases h
  · cases h

/-- What `handle_packet` can do to the phase, by packet type. -/
theorem handlePacket_state_cases {c : Connection} {u : Nat × Nat} {pk : Packet}
    {c' : Connection} (h : handlePacket c u pk = .ok c') :
    c'.state = c.state ∨ c'.state = .disconnected ∨
      (pk.packetType = .handshakeServerboundStart ∧
        (c'.state = .status ∨ c'.state = .login)) ∨
      (pk.packetType = .loginServerboundStart ∧ c'.state = .play) := by
  unfold handlePacket at h
  repeat' split at h
  all_goals cases h
  all_goals simp_all [disconnect, sendPacket]
  all_goals split
  all_goals simp_all

/-- One parse step moves the phase along a single allowed edge (or keeps
it). -/
theorem tryToParsePacket_phase {c : Connection} {u : Nat × Nat} {fl : Bool}
    {c' : Connection} (h : tryToParsePacket c u = .ok fl c') :
    phaseEdge c.state c'.state := by
  simp only [tryToParsePacket] at h
  split at h
  case _ packet heq =>
    split at h
    case _ c2 hh =>
      cases h
      have hty := decode_ok_type heq
      have hst := handlePacket_state_cases hh
      unfold phaseEdge
      rcases hst with h1 | h1 | ⟨h1, h2⟩ | ⟨h1, h2⟩ <;>
        rcases hty with ⟨h3, h4⟩ | ⟨h3, h4⟩ | ⟨h3, h4⟩ <;>
        simp_all
    · cases h
  · cases h
    unfold phaseEdge
    tauto
  · cases h
  · cases h

/-- One allowed edge followed by reachability is reachability. -/
theorem phaseEdge_trans_reach {s t v : ConnectionState} (h1 : phaseEdge s t)
    (h2 : phaseReach t v) : phaseReach s v := by
  cases s <;> cases t <;> cases v <;> simp_all [phaseEdge, phaseReach]

/-- An allowed edge is reachability. -/
theorem phaseEdge_reach {s t : ConnectionState} (h : phaseEdge s t) :
    phaseReach s t := by
  cases s <;> cases t <;> simp_all [phaseEdge, phaseReach]

/-- The decode loop only moves the phase along reachable chains of allowed
edges. -/
theorem connLoop_phase {u : Nat × Nat} {c c' : Connection}
    (h : connLoop u c = .ok c') : phaseReach c.state c'.state := by
  rw [connLoop_eq] at h
  by_cases hd : c.state = .disconnected
  · rw [if_pos hd] at h
    cases h
    left
    rfl
  · rw [if_neg hd] at h
    cases htp : tryToParsePacket c u with
    | ok fl c1 =>
      rw [htp] at h
      cases fl
      · cases h
        exact phaseEdge_reach (tryToParsePacket_phase htp)
      · exact phaseEdge_trans_reach (tryToParsePacket_phase htp) (connLoop_phase h)
    | connError c1 e =>
      rw [htp] at h
      cases h
    | crash =>
      rw [htp] at h
      cases h
termination_by c.currentPacket.length
decreasing_by exact tryToParsePacket_true_shrink htp

/-- **C8.**  The phase moves only along `Handshake→Status`,
`Handshake→Login`, `Login→Play` and `any→Disconnected` (a parse step takes a
single such edge, remaining in the transition relation's closure across the
loop); once Disconnected, `data_read` only appends the arrived bytes — no
frame is decoded or dispatched, nothing is sent — and `disconnect` is
idempotent. -/
theorem phase_transitions :
    (∀ (c : Connection) (u : Nat × Nat) (fl : Bool) (c' : Connection),
        tryToParsePacket c u = .ok fl c' → phaseEdge c.state c'.state) ∧
      (∀ c : Connection, (disconnect c).state = .disconnected ∧
        disconnect (disconnect c) = disconnect c) ∧
      (∀ (c : Connection) (bytes : List Nat) (u : Nat × Nat),
        c.state = .disconnected →
        dataRead c bytes u = .ok { c with currentPacket := c.currentPacket ++ bytes }) ∧
      (∀ (c : Connection) (bytes : List Nat) (u : Nat × Nat) (c' : Connection),
        dataRead c bytes u = .ok c' → phaseReach c.state c'.state) := by
  refine ⟨fun c u fl c' h => tryToParsePacket_phase h, fun c => ⟨disconnect_state c, ?_⟩,
    fun c bytes u hd => ?_, fun c bytes u c' h => ?_⟩
  · by_cases h : c.state = .disconnected
    · simp [disconnect, h]
    · simp [disconnect, h]
  · unfold dataRead
    by_cases hb : bytes.isEmpty
    · rw [if_pos hb]
      have : bytes = [] := List.isEmpty_iff.mp hb
      subst this
      simp
    · rw [if_neg hb, connLoop_eq]
      rw [if_pos hd]
  · unfold dataRead at h
    split at h
    · cases h
      left
      rfl
    · exact connLoop_phase (u := u)
        (c := { c with currentPacket := c.currentPacket ++ bytes }) h

/-- Witness for C8: a disconnected connection only accumulates arriving
bytes, and a concrete parse step / loop run stays in the allowed relation. -/
theorem phase_transitions_witness :
    dataRead ⟨[0x05], .disconnected, [], 3⟩ [9] (0, 0) =
        .ok ⟨[0x05, 9], .disconnected, [], 3⟩ ∧
      phaseEdge ConnectionState.handshake ConnectionState.handshake ∧
      phaseReach ConnectionState.disconnected ConnectionState.disconnected :=
  ⟨phase_transitions.2.2.1 ⟨[0x05], .disconnected, [], 3⟩ [9] (0, 0) rfl,
    phase_transitions.1 ⟨[0x80], .handshake, [], 0⟩ (0, 0) false ⟨[0x80], .handshake, [], 0⟩
      (by simp +decide [tryToParsePacket, Packet.decode, Packet.read, PacketReader.create,
        PacketReader.leftToRead, PacketReader.readVarint, PacketReader.readVarintAux,
        PacketReader.tryReadOne, PacketReader.readOneUnsafe]),
    phase_transitions.2.2.2 ⟨[], .disconnected, [], 0⟩ [] (0, 0) ⟨[], .disconnected, [], 0⟩ rfl⟩

end FunnyProxy
